import Mathlib

/-!
# Test-value builders of `value_test_utils.h`

A shallow embedding of the builder functions of
`tensorflow_federated/cc/core/impl/executors/value_test_utils.h`.

Protocol-buffer messages are immutable Lean values.  A singular message
field has presence and is an `Option`; a scalar field (`string`, `bool`)
has no presence and carries its default (`""`, `false`) when it was never
written; a repeated field is a `List` and `add_x()` appends at the end; a
`oneof` is an inductive type with one constructor per case.
`mutable_x()` on an absent field creates the default message first.
-/

namespace TFF

/-! ## The message types -/

/-- Modelled from the spec: `v0::TensorType::DataType` of `computation.proto`
(absent from the sources); only the enumerators the helpers mention. -/
inductive DataType where
  | DT_INVALID
  | DT_INT32
  | DT_STRING
  | DT_INT64
  deriving DecidableEq, Repr

/-- Modelled from the spec: `v0::TensorType` of `computation.proto`
(absent from the sources): a dtype and the repeated `dims`. -/
structure TensorType where
  dtype : DataType := DataType.DT_INVALID
  dims : List Int := []
  unknown_rank : Bool := false
  deriving DecidableEq, Repr

/-- Modelled from the spec: `v0::Type` of `computation.proto` (absent from
the sources); of its `oneof` only the unset case and the tensor case, the
one the helpers populate. -/
inductive TypeProto where
  | TYPE_NOT_SET
  | tensor (t : TensorType)
  deriving DecidableEq, Repr

/-- Modelled from the spec: `v0::Placement`, a placement named by URI. -/
structure Placement where
  uri : String := ""
  deriving DecidableEq, Repr

/-- Modelled from the spec: `v0::PlacementSpec`, whose `value` is a
`Placement` message. -/
structure PlacementSpec where
  value : Option Placement := none
  deriving DecidableEq, Repr

/-- Modelled from the spec: `v0::FederatedType` of `computation.proto`
(absent from the sources): `placement`, `all_equal` and `member`. -/
structure FederatedType where
  placement : Option PlacementSpec := none
  all_equal : Bool := false
  member : Option TypeProto := none
  deriving DecidableEq, Repr

/-- Modelled from the spec: `v0::Intrinsic`, an intrinsic referenced by URI. -/
structure Intrinsic where
  uri : String := ""
  deriving DecidableEq, Repr

/-- Modelled from the spec: `v0::Reference`, a reference by name. -/
structure Reference where
  name : String := ""
  deriving DecidableEq, Repr

/-- Modelled from the spec: `v0::Data`, a data reference by URI. -/
structure Data where
  uri : String := ""
  deriving DecidableEq, Repr

/-- Modelled from the spec: the `oneof selection` of `v0::Selection`. -/
inductive SelectionCase where
  | SELECTION_NOT_SET
  | name (n : String)
  | index (i : Int)
  deriving DecidableEq, Repr

mutual
/-- Modelled from the spec: `v0::Computation` of `computation.proto` (absent
from the sources): the optional `type` and the `oneof computation`. -/
inductive Computation where
  | mk (type : Option TypeProto) (computation : ComputationCase)
/-- Modelled from the spec: the `oneof computation` of `v0::Computation`,
with the cases the spec lists: lambda, block, reference, selection, struct,
intrinsic, data and placement. -/
inductive ComputationCase where
  | COMPUTATION_NOT_SET
  | reference (r : Reference)
  | lambda (l : Lambda)
  | block (b : Block)
  | struct_ (s : Struct)
  | selection (s : Selection)
  | placement (p : Placement)
  | intrinsic (i : Intrinsic)
  | data (d : Data)
/-- Modelled from the spec: `v0::Lambda`: a `string parameter_name` (no
presence) and the `result` computation. -/
inductive Lambda where
  | mk (parameter_name : String) (result : Option Computation)
/-- Modelled from the spec: `v0::Block`: the repeated `local` and the
`result` computation. -/
inductive Block where
  | mk (local_ : List BlockLocal) (result : Option Computation)
/-- Modelled from the spec: `v0::Block::Local`: a name and a value. -/
inductive BlockLocal where
  | mk (name : String) (value : Option Computation)
/-- Modelled from the spec: `v0::Struct`: the repeated `element`. -/
inductive Struct where
  | mk (element : List StructElement)
/-- Modelled from the spec: `v0::Struct::Element`: a `string name` (no
presence) and a value. -/
inductive StructElement where
  | mk (name : String) (value : Option Computation)
/-- Modelled from the spec: `v0::Selection`: the source computation and the
selected name or index. -/
inductive Selection where
  | mk (source : Option Computation) (selection : SelectionCase)
end

/-- Field `type` of a `Computation`. -/
def Computation.type : Computation → Option TypeProto
  | .mk t _ => t

/-- Which case of the `oneof computation` is set, and its payload. -/
def Computation.computation : Computation → ComputationCase
  | .mk _ c => c

/-- The default instance of the message: no type, no case set. -/
def Computation.default : Computation := .mk none .COMPUTATION_NOT_SET

/-- Field `parameter_name` of a `Lambda`. -/
def Lambda.parameter_name : Lambda → String
  | .mk n _ => n

/-- Field `result` of a `Lambda`. -/
def Lambda.result : Lambda → Option Computation
  | .mk _ r => r

/-- The default `Lambda`. -/
def Lambda.default : Lambda := .mk "" none

/-- Field `local` of a `Block`. -/
def Block.local_ : Block → List BlockLocal
  | .mk l _ => l

/-- Field `result` of a `Block`. -/
def Block.result : Block → Option Computation
  | .mk _ r => r

/-- The default `Block`. -/
def Block.default : Block := .mk [] none

/-- Field `name` of a block local. -/
def BlockLocal.name : BlockLocal → String
  | .mk n _ => n

/-- Field `value` of a block local. -/
def BlockLocal.value : BlockLocal → Option Computation
  | .mk _ v => v

/-- The default block local. -/
def BlockLocal.default : BlockLocal := .mk "" none

/-- Field `element` of a `Struct`. -/
def Struct.element : Struct → List StructElement
  | .mk e => e

/-- The default `Struct`. -/
def Struct.default : Struct := .mk []

/-- Field `name` of a struct element. -/
def StructElement.name : StructElement → String
  | .mk n _ => n

/-- Field `value` of a struct element. -/
def StructElement.value : StructElement → Option Computation
  | .mk _ v => v

/-- The default struct element. -/
def StructElement.default : StructElement := .mk "" none

/-- Modelled from the spec: `tensorflow::TensorProto` (TensorFlow, absent
from the sources): the dtype, the shape, and the two alternative encodings
of the elements, the raw `tensor_content` bytes and the typed value fields. -/
structure TensorProto where
  dtype : DataType := DataType.DT_INVALID
  tensor_shape : List Int := []
  tensor_content : List Nat := []
  int_val : List Int := []
  string_val : List String := []
  deriving DecidableEq, Repr

/-- Modelled from the spec: `google::protobuf::Any` holding a packed
`TensorProto`; the payload is kept as the message it was packed from. -/
structure AnyProto where
  type_url : String := ""
  value : TensorProto := {}
  deriving DecidableEq, Repr

/-- Modelled from the spec: `v0::Value::Sequence` of `executor.proto` (absent
from the sources): the serialized dataset graph and the element type. -/
structure Sequence where
  serialized_graph_def : Option String := none
  element_type : Option TypeProto := none
  deriving DecidableEq, Repr

mutual
/-- Modelled from the spec: `v0::Value` of `executor.proto` (absent from the
sources): a tagged value that is a tensor, a computation, a structure of
values, a sequence or a federated collection. -/
inductive Value where
  | VALUE_NOT_SET
  | tensor (t : AnyProto)
  | computation (c : Computation)
  | struct_ (s : ValueStruct)
  | sequence (s : Sequence)
  | federated (f : ValueFederated)
/-- Modelled from the spec: `v0::Value::Struct`: the repeated `element`. -/
inductive ValueStruct where
  | mk (element : List ValueStructElement)
/-- Modelled from the spec: `v0::Value::Struct::Element`: a `string name`
(no presence) and a value. -/
inductive ValueStructElement where
  | mk (name : String) (value : Option Value)
/-- Modelled from the spec: `v0::Value::Federated`: the federated type and
the repeated member values. -/
inductive ValueFederated where
  | mk (type : Option FederatedType) (value : List Value)
end

/-- Field `element` of a value struct. -/
def ValueStruct.element : ValueStruct → List ValueStructElement
  | .mk e => e

/-- The default value struct. -/
def ValueStruct.default : ValueStruct := .mk []

/-- Field `name` of a value struct element. -/
def ValueStructElement.name : ValueStructElement → String
  | .mk n _ => n

/-- Field `value` of a value struct element. -/
def ValueStructElement.value : ValueStructElement → Option Value
  | .mk _ v => v

/-- The default value struct element. -/
def ValueStructElement.default : ValueStructElement := .mk "" none

/-- Field `type` of a federated value. -/
def ValueFederated.type : ValueFederated → Option FederatedType
  | .mk t _ => t

/-- Field `value` of a federated value. -/
def ValueFederated.value : ValueFederated → List Value
  | .mk _ v => v

/-- The default federated value. -/
def ValueFederated.default : ValueFederated := .mk none []

/-! ## Generated accessors used by the helpers -/

/-- Accessor `mutable_type()` followed by a write: the type message is
created when absent, then updated by `f`. -/
def ValueFederated.mutable_type (f : ValueFederated) (upd : FederatedType → FederatedType) :
    ValueFederated :=
  .mk (some (upd (f.type.getD {}))) f.value

/-- Accessor `add_value()` followed by an assignment: appends one value. -/
def ValueFederated.add_value (f : ValueFederated) (v : Value) : ValueFederated :=
  .mk f.type (f.value ++ [v])

/-- Accessor `mutable_placement()->mutable_value()->mutable_uri()` followed
by an assignment of the URI. -/
def FederatedType.set_placement_uri (t : FederatedType) (uri : String) : FederatedType :=
  let spec := t.placement.getD {}
  let placement := spec.value.getD {}
  { t with placement := some { spec with value := some { placement with uri := uri } } }

/-- Accessor `set_all_equal`. -/
def FederatedType.set_all_equal (t : FederatedType) (b : Bool) : FederatedType :=
  { t with all_equal := b }

/-- Accessor `add_element()->mutable_value()` followed by an assignment:
appends a default element whose value is then set. -/
def ValueStruct.add_element_value (s : ValueStruct) (v : Value) : ValueStruct :=
  .mk (s.element ++ [.mk ValueStructElement.default.name (some v)])

/-- Accessor `add_element()->mutable_value()` followed by an assignment, on
a computation struct. -/
def Struct.add_element_value (s : Struct) (v : Computation) : Struct :=
  .mk (s.element ++ [.mk StructElement.default.name (some v)])

/-- Accessor `add_local()` followed by the writes of its name and value. -/
def Block.add_local (b : Block) (name : String) (value : Computation) : Block :=
  .mk (b.local_ ++ [.mk name (some value)]) b.result

/-- Accessor `mutable_result()` followed by an assignment. -/
def Block.set_result (b : Block) (r : Computation) : Block :=
  .mk b.local_ (some r)

/-- Accessor `mutable_parameter_name()->assign(data, size)`. -/
def Lambda.set_parameter_name (l : Lambda) (n : String) : Lambda :=
  .mk n l.result

/-- Accessor `mutable_result()` followed by an assignment. -/
def Lambda.set_result (l : Lambda) (r : Computation) : Lambda :=
  .mk l.parameter_name (some r)

/-! ## The helpers -/

/-- Source `IntrinsicV`: a value whose computation is the intrinsic `uri`. -/
def IntrinsicV (uri : String) : Value :=
  Value.computation (.mk Computation.default.type (.intrinsic { uri := uri }))

/-- Source `ServerV`. -/
def ServerV (server_val : Value) : Value :=
  let federated := ValueFederated.default
  let federated := federated.mutable_type fun type_proto => type_proto.set_all_equal true
  let federated := federated.mutable_type fun type_proto => type_proto.set_placement_uri "server"
  let federated := federated.add_value server_val
  Value.federated federated

/-- Source `ClientsV`; `all_equal` is `false` when omitted.  `Reserve` only
sets the capacity of the repeated field and adds no entry. -/
def ClientsV (client_values : List Value) (all_equal : Bool := false) : Value :=
  let federated := ValueFederated.default
  let federated := federated.mutable_type fun type_proto => type_proto.set_all_equal all_equal
  let federated := federated.mutable_type fun type_proto => type_proto.set_placement_uri "clients"
  let federated := client_values.foldl (fun values_pb client_value =>
    values_pb.add_value client_value) federated
  Value.federated federated

/-- Source `StructV`. -/
def StructV (elements : List Value) : Value :=
  let struct_proto := ValueStruct.default
  let struct_proto := elements.foldl (fun struct_proto element =>
    struct_proto.add_element_value element) struct_proto
  Value.struct_ struct_proto

/-- Source `ComputationV`. -/
def ComputationV (computation_pb : Computation) : Value :=
  Value.computation computation_pb

/-- Source `StructComputation`. -/
def StructComputation (elements : List Computation) : Computation :=
  let struct_pb := Struct.default
  let struct_pb := elements.foldl (fun struct_pb element =>
    struct_pb.add_element_value element) struct_pb
  .mk Computation.default.type (.struct_ struct_pb)

/-- Source `LambdaComputation`; an absent `parameter_name` is `none`. -/
def LambdaComputation (parameter_name : Option String)
    (result_computation_value : Computation) : Computation :=
  let lambda_pb := Lambda.default
  let lambda_pb :=
    match parameter_name with
    | some n => lambda_pb.set_parameter_name n
    | none => lambda_pb
  let lambda_pb := lambda_pb.set_result result_computation_value
  .mk Computation.default.type (.lambda lambda_pb)

/-- Source `BlockComputation`. -/
def BlockComputation (locals : List (String × Computation)) (result : Computation) :
    Computation :=
  let block_pb := Block.default
  let block_pb := locals.foldl (fun block_pb loc =>
    block_pb.add_local loc.1 loc.2) block_pb
  let block_pb := block_pb.set_result result
  .mk Computation.default.type (.block block_pb)

/-- Source `IntrinsicComputation`. -/
def IntrinsicComputation (uri : String) : Computation :=
  .mk Computation.default.type (.intrinsic { uri := uri })

/-- Source `INTRINSIC_FUNC(name, uri)`: the body of the generated helper,
`IntrinsicV(#uri)` with the URI token turned into a string literal. -/
def INTRINSIC_FUNC (uri : String) : Value := IntrinsicV uri

namespace intrinsic

/-- Source `INTRINSIC_FUNC(ArgsIntoSequenceV, args_into_sequence)`. -/
def ArgsIntoSequenceV : Value := INTRINSIC_FUNC "args_into_sequence"
/-- Source `INTRINSIC_FUNC(FederatedAggregateV, federated_aggregate)`. -/
def FederatedAggregateV : Value := INTRINSIC_FUNC "federated_aggregate"
/-- Source `INTRINSIC_FUNC(FederatedBroadcastV, federated_broadcast)`. -/
def FederatedBroadcastV : Value := INTRINSIC_FUNC "federated_broadcast"
/-- Source `INTRINSIC_FUNC(FederatedMapV, federated_map)`. -/
def FederatedMapV : Value := INTRINSIC_FUNC "federated_map"
/-- Source `INTRINSIC_FUNC(FederatedMapAllEqualV, federated_map_all_equal)`. -/
def FederatedMapAllEqualV : Value := INTRINSIC_FUNC "federated_map_all_equal"
/-- Source `INTRINSIC_FUNC(FederatedEvalAtClientsV, federated_eval_at_clients)`. -/
def FederatedEvalAtClientsV : Value := INTRINSIC_FUNC "federated_eval_at_clients"
/-- Source `INTRINSIC_FUNC(FederatedEvalAtServerV, federated_eval_at_server)`. -/
def FederatedEvalAtServerV : Value := INTRINSIC_FUNC "federated_eval_at_server"
/-- Source `INTRINSIC_FUNC(FederatedSelectV, federated_select)`. -/
def FederatedSelectV : Value := INTRINSIC_FUNC "federated_select"
/-- Source `INTRINSIC_FUNC(FederatedValueAtClientsV, federated_value_at_clients)`. -/
def FederatedValueAtClientsV : Value := INTRINSIC_FUNC "federated_value_at_clients"
/-- Source `INTRINSIC_FUNC(FederatedValueAtServerV, federated_value_at_server)`. -/
def FederatedValueAtServerV : Value := INTRINSIC_FUNC "federated_value_at_server"
/-- Source `INTRINSIC_FUNC(FederatedZipAtClientsV, federated_zip_at_clients)`. -/
def FederatedZipAtClientsV : Value := INTRINSIC_FUNC "federated_zip_at_clients"
/-- Source `INTRINSIC_FUNC(FederatedZipAtServerV, federated_zip_at_server)`. -/
def FederatedZipAtServerV : Value := INTRINSIC_FUNC "federated_zip_at_server"

end intrinsic

/-- The twelve helpers of namespace `intrinsic`, each with the name under
which the source declares it, in declaration order. -/
def intrinsicHelpers : List (String × Value) :=
  [ ("ArgsIntoSequenceV", intrinsic.ArgsIntoSequenceV),
    ("FederatedAggregateV", intrinsic.FederatedAggregateV),
    ("FederatedBroadcastV", intrinsic.FederatedBroadcastV),
    ("FederatedMapV", intrinsic.FederatedMapV),
    ("FederatedMapAllEqualV", intrinsic.FederatedMapAllEqualV),
    ("FederatedEvalAtClientsV", intrinsic.FederatedEvalAtClientsV),
    ("FederatedEvalAtServerV", intrinsic.FederatedEvalAtServerV),
    ("FederatedSelectV", intrinsic.FederatedSelectV),
    ("FederatedValueAtClientsV", intrinsic.FederatedValueAtClientsV),
    ("FederatedValueAtServerV", intrinsic.FederatedValueAtServerV),
    ("FederatedZipAtClientsV", intrinsic.FederatedZipAtClientsV),
    ("FederatedZipAtServerV", intrinsic.FederatedZipAtServerV) ]

/-- Spec side, snake case of a CamelCase word: every upper-case letter is
lowered, and preceded by an underscore unless it starts the word. -/
def specSnakeCaseChars : Bool → List Char → List Char
  | _, [] => []
  | first, c :: cs =>
    if c.isUpper then
      (if first then [c.toLower] else ['_', c.toLower]) ++ specSnakeCaseChars false cs
    else c :: specSnakeCaseChars false cs

/-- Spec side, the URI the claim assigns to a helper: the snake case of the
helper name without its final `V` (`FederatedAggregateV` gives
`federated_aggregate`). -/
def specIntrinsicUri (helperName : String) : String :=
  String.mk (specSnakeCaseChars true helperName.toList.dropLast)

/-- The URI of the intrinsic a value refers to, when it is a computation in
the intrinsic case. -/
def Value.intrinsicUri? : Value → Option String
  | .computation (.mk _ (.intrinsic i)) => some i.uri
  | _ => none

/-! ## Tensors -/

/-- Modelled from the spec: the element buffer of a `tensorflow::Tensor`
(TensorFlow, absent from the sources): integers for the integer dtypes,
strings for `DT_STRING`. -/
inductive TensorBuffer where
  | ints (xs : List Int)
  | strings (xs : List String)
  deriving DecidableEq, Repr

/-- Modelled from the spec: `tensorflow::Tensor` (TensorFlow, absent from the
sources): a dtype, the dimensions of its shape and its flat element buffer. -/
structure Tensor where
  dtype : DataType
  shape : List Int
  buffer : TensorBuffer
  deriving DecidableEq, Repr

/-- The conversion `static_cast<int64_t>` of a `size_t`: the value modulo
`2^64`, read as a two-complement 64-bit integer. -/
def static_cast_int64 (n : Nat) : Int :=
  if n % 2 ^ 64 < 2 ^ 63 then ((n % 2 ^ 64 : Nat) : Int) else ((n % 2 ^ 64 : Nat) : Int) - 2 ^ 64

/-- Modelled from the spec: `tensorflow::TensorShape({d})`, the rank-1 shape
of dimension `d`; the constructor rejects a negative dimension (`none`). -/
def TensorShape.rank1 (d : Int) : Option (List Int) :=
  if d < 0 then none else some [d]

/-- Modelled from the spec: `tensorflow::Tensor(DT_INT32, shape)`: a tensor
with one element per position of the shape, its contents not initialised;
`uninit i` stands for whatever position `i` holds after allocation. -/
def Tensor.allocInt32 (shape : List Int) (uninit : Nat → Int) : Tensor :=
  { dtype := DataType.DT_INT32
    shape := shape
    buffer := TensorBuffer.ints ((List.range (shape.map Int.toNat).prod).map uninit) }

/-- Modelled from the spec: the view `tensor.flat<int32_t>()`, the element
buffer of an integer tensor. -/
def Tensor.flat_int32 (t : Tensor) : List Int :=
  match t.buffer with
  | .ints xs => xs
  | .strings _ => []

/-- Writing back through the view `tensor.flat<int32_t>()`. -/
def Tensor.with_flat_int32 (t : Tensor) (flat : List Int) : Tensor :=
  { t with buffer := TensorBuffer.ints flat }

/-- Modelled from the spec: `Any::PackFrom` of a `TensorProto`: the type URL
of the message type and the message as payload. -/
def PackFrom (tensor_proto : TensorProto) : AnyProto :=
  { type_url := "type.googleapis.com/tensorflow.TensorProto", value := tensor_proto }

/-- Source `TensorV`, at the instantiation the file uses (one `Tensor`
argument, copied).  The two TensorFlow serializers `Tensor::AsProtoField`
and `Tensor::AsProtoTensorContent` are parameters. -/
def TensorV (AsProtoField AsProtoTensorContent : Tensor → TensorProto)
    (tensor_constructor_args : Tensor) : Value :=
  let tensor := tensor_constructor_args
  let tensor_proto :=
    if tensor.dtype = DataType.DT_STRING then AsProtoField tensor
    else AsProtoTensorContent tensor
  Value.tensor (PackFrom tensor_proto)

/-- A sample `AsProtoTensorContent`: dtype, shape, and the elements as
little-endian 32-bit words in `tensor_content`. -/
def sampleAsProtoTensorContent (t : Tensor) : TensorProto :=
  { dtype := t.dtype
    tensor_shape := t.shape
    tensor_content := t.flat_int32.flatMap fun v =>
      let u := (v % 2 ^ 32).toNat
      [u % 256, u / 256 % 256, u / 65536 % 256, u / 16777216 % 256] }

/-- A sample `AsProtoField`: dtype, shape, and the elements in the typed
value fields. -/
def sampleAsProtoField (t : Tensor) : TensorProto :=
  { dtype := t.dtype
    tensor_shape := t.shape
    int_val := t.flat_int32
    string_val := match t.buffer with
      | .strings xs => xs
      | .ints _ => [] }

/-- The loop of `TensorVFromIntList`: for `i` from `0` up to `num_elements`,
`flat(i) = elements[i]`; the index is below `elements.size()` by the loop
guard. -/
def TensorVFromIntList.fill (elements : List Int) (num_elements : Nat) (flat : List Int) :
    List Int :=
  (List.range num_elements).foldl (fun flat i => flat.set i (elements.getD i 0)) flat

/-- Source `TensorVFromIntList`; `none` when the shape constructor rejects
the dimension. -/
def TensorVFromIntList (AsProtoField AsProtoTensorContent : Tensor → TensorProto)
    (uninit : Nat → Int) (elements : List Int) : Option Value :=
  let num_elements := elements.length
  match TensorShape.rank1 (static_cast_int64 num_elements) with
  | none => none
  | some shape =>
    let tensor := Tensor.allocInt32 shape uninit
    let flat := TensorVFromIntList.fill elements num_elements tensor.flat_int32
    let tensor := tensor.with_flat_int32 flat
    some (TensorV AsProtoField AsProtoTensorContent tensor)

/-! ## Statuses, datasets and iterators -/

/-- Modelled from the spec: the status codes of `absl::Status` (Abseil,
absent from the sources) that occur here. -/
inductive StatusCode where
  | kOk
  | kInvalidArgument
  | kInternal
  | kUnknown
  deriving DecidableEq, Repr

/-- Modelled from the spec: `absl::Status` / `tensorflow::Status` (absent
from the sources): a code and an error message. -/
structure Status where
  code : StatusCode
  error_message : String
  deriving DecidableEq, Repr

/-- Accessor `Status::ok()`. -/
def Status.ok (s : Status) : Bool := s.code = StatusCode.kOk

/-- The OK status. -/
def OkStatus : Status := { code := StatusCode.kOk, error_message := "" }

/-- Modelled from the spec: `absl::InternalError(message)`. -/
def InternalError (message : String) : Status :=
  { code := StatusCode.kInternal, error_message := message }

/-- What one call `iterator->GetNext(&output, &end_of_input)` leaves behind:
the returned status and the two out-parameters. -/
structure GetNextResult where
  status : Status
  output : List Tensor
  end_of_input : Bool
  deriving DecidableEq, Repr

/-- The operations `SequenceValueToList` calls and the sources do not hold:
`SequenceValueToDataset` of `dataset_conversions.h`, and `MakeIterator` and
`GetNext` of the TensorFlow standalone dataset API.  `δ` is the dataset
type, `ι` the state of an iterator, which `GetNext` advances. -/
structure DatasetRuntime (δ ι : Type) where
  SequenceValueToDataset : Sequence → Except Status δ
  MakeIterator : δ → Status × ι
  GetNext : ι → GetNextResult × ι

/-- The `while (true)` loop of `SequenceValueToList`.  `fuel` bounds the
number of rounds; `none` means the bound was reached with the loop still
running. -/
def SequenceValueToList.loop {ι : Type} (GetNext : ι → GetNextResult × ι) :
    Nat → ι → List (List Tensor) → Option (Except Status (List (List Tensor)))
  | 0, _, _ => none
  | fuel + 1, iterator, outputs =>
    let r := GetNext iterator
    let status := r.1.status
    if !status.ok then
      some (.error (InternalError
        ("Failed to get the " ++ toString outputs.length ++ "th element of the sequence: "
          ++ status.error_message)))
    else if r.1.end_of_input then
      some (.ok outputs)
    else
      SequenceValueToList.loop GetNext fuel r.2 (outputs ++ [r.1.output])

/-- Source `SequenceValueToList`.  `TFF_TRY` returns the failed status of
`SequenceValueToDataset` unchanged. -/
def SequenceValueToList {δ ι : Type} (rt : DatasetRuntime δ ι) (fuel : Nat)
    (sequence : Sequence) : Option (Except Status (List (List Tensor))) :=
  match rt.SequenceValueToDataset sequence with
  | .error status => some (.error status)
  | .ok dataset =>
    let made := rt.MakeIterator dataset
    let status := made.1
    if !status.ok then
      some (.error (InternalError
        ("Unable to make iterator from sequence dataset: " ++ status.error_message)))
    else
      SequenceValueToList.loop rt.GetNext fuel made.2 []

/-- The iterator state after `k` calls of `GetNext`. -/
def iterAfter {ι : Type} (GetNext : ι → GetNextResult × ι) : Nat → ι → ι
  | 0, it => it
  | k + 1, it => iterAfter GetNext k (GetNext it).2

/-- What call number `k` (counted from 0) of `GetNext` returns. -/
def callResult {ι : Type} (GetNext : ι → GetNextResult × ι) (k : Nat) (it : ι) :
    GetNextResult :=
  (GetNext (iterAfter GetNext k it)).1

/-- The first `k` calls of `GetNext` all return OK without end of input:
the iterator yields `k` elements. -/
def ReadsElements {ι : Type} (GetNext : ι → GetNextResult × ι) (k : Nat) (it : ι) : Prop :=
  ∀ i : Nat, i < k →
    (callResult GetNext i it).status.ok = true ∧ (callResult GetNext i it).end_of_input = false

instance {ι : Type} (GetNext : ι → GetNextResult × ι) (k : Nat) (it : ι) :
    Decidable (ReadsElements GetNext k it) := by
  unfold ReadsElements
  infer_instance

/-- The outputs of the first `k` calls of `GetNext`, in iteration order. -/
def elementsRead {ι : Type} (GetNext : ι → GetNextResult × ι) (k : Nat) (it : ι) :
    List (List Tensor) :=
  (List.range k).map fun i => (callResult GetNext i it).output

/-- The message of the error returned when call `k` of `GetNext` fails. -/
def getNextFailure (k : Nat) (status : Status) : Status :=
  InternalError
    ("Failed to get the " ++ toString k ++ "th element of the sequence: " ++ status.error_message)

/-- The message of the error returned when `MakeIterator` fails. -/
def makeIteratorFailure (status : Status) : Status :=
  InternalError ("Unable to make iterator from sequence dataset: " ++ status.error_message)

/-- A scalar int64 tensor. -/
def scalarInt64 (v : Int) : Tensor :=
  { dtype := DataType.DT_INT64, shape := [], buffer := TensorBuffer.ints [v] }

/-- A sample runtime: every sequence converts, the iterator counts from 0,
yields the scalars 0, 1, 2 and then reports end of input. -/
def countingRuntime : DatasetRuntime Unit Nat where
  SequenceValueToDataset := fun _ => .ok ()
  MakeIterator := fun _ => (OkStatus, 0)
  GetNext := fun n =>
    if n < 3 then
      ({ status := OkStatus, output := [scalarInt64 n], end_of_input := false }, n + 1)
    else ({ status := OkStatus, output := [], end_of_input := true }, n)

/-- A sample runtime whose iterator yields the scalars 0 and 1 and fails on
the third call. -/
def failingRuntime : DatasetRuntime Unit Nat where
  SequenceValueToDataset := fun _ => .ok ()
  MakeIterator := fun _ => (OkStatus, 0)
  GetNext := fun n =>
    if n < 2 then
      ({ status := OkStatus, output := [scalarInt64 n], end_of_input := false }, n + 1)
    else
      ({ status := { code := StatusCode.kUnknown, error_message := "read failed" },
         output := [], end_of_input := false }, n)

/-! ## Range datasets and sequence values -/

/-- The arguments with which `CreateSerializedRangeDatasetGraphDef` builds
its `RangeDataset` op: the three constants, the output types and the output
shapes (one list of dimensions per component). -/
structure RangeDataset where
  start : Int
  stop : Int
  step : Int
  output_types : List DataType
  output_shapes : List (List Int)
  deriving DecidableEq, Repr

/-- The ways in which the reads of `CreateSerializedRangeDatasetGraphDef`
leave defined behaviour. -/
inductive Fault where
  | vectorIndexOutOfRange
  | flatDtypeMismatch
  | flatIndexOutOfRange
  deriving DecidableEq, Repr

/-- Modelled from the spec: the view `tensor.flat<tstring>()`, which exists
only for a tensor of dtype `DT_STRING`. -/
def Tensor.flat_tstring (t : Tensor) : Except Fault (List String) :=
  match t.dtype, t.buffer with
  | DataType.DT_STRING, .strings xs => .ok xs
  | _, _ => .error Fault.flatDtypeMismatch

/-- The range dataset op built from `start`, `stop` and `step`: element type
`DT_INT64`, output shape `TensorShape({})`. -/
def rangeDataset (start stop step : Int) : RangeDataset :=
  { start := start, stop := stop, step := step,
    output_types := [DataType.DT_INT64],
    output_shapes := [[]] }

/-- Source `CreateSerializedRangeDatasetGraphDef`.  `Run` stands for
`DatasetToGraphV2` on the dataset fetched through a fresh `ClientSession`:
it returns the status of `session.Run` and the `outputs` vector it filled.
The status is stored and never read. -/
def CreateSerializedRangeDatasetGraphDef (Run : RangeDataset → Status × List Tensor)
    (start stop step : Int) : Except Fault String :=
  let dataset := rangeDataset start stop step
  let ran := Run dataset
  let outputs := ran.2
  match outputs[0]? with
  | none => .error Fault.vectorIndexOutOfRange
  | some output =>
    match output.flat_tstring with
    | .error f => .error f
    | .ok flat =>
      match flat[0]? with
      | none => .error Fault.flatIndexOutOfRange
      | some graph_def => .ok graph_def

/-- Source `SequenceV`. -/
def SequenceV (Run : RangeDataset → Status × List Tensor) (start stop step : Int) :
    Except Fault Value :=
  match CreateSerializedRangeDatasetGraphDef Run start stop step with
  | .error f => .error f
  | .ok sequence_graph =>
    let sequence_pb : Sequence := {}
    let sequence_pb := { sequence_pb with serialized_graph_def := some sequence_graph }
    let tensor_type : TensorType := {}
    let tensor_type := { tensor_type with dtype := DataType.DT_INT64 }
    let tensor_type := { tensor_type with dims := tensor_type.dims ++ [1] }
    let sequence_pb := { sequence_pb with element_type := some (TypeProto.tensor tensor_type) }
    .ok (Value.sequence sequence_pb)

/-- A sample session in which every run succeeds and fills `outputs` with
one string tensor holding a rendering of the dataset arguments. -/
def succeedingSession (d : RangeDataset) : Status × List Tensor :=
  (OkStatus,
   [{ dtype := DataType.DT_STRING, shape := [],
      buffer := TensorBuffer.strings
        ["range(" ++ toString d.start ++ "," ++ toString d.stop ++ "," ++ toString d.step ++ ")"] }])

/-- A sample session that rejects a range dataset of step 0, as the
TensorFlow op does, returning an error status and leaving `outputs` empty,
and otherwise behaves as `succeedingSession`. -/
def rejectingSession (d : RangeDataset) : Status × List Tensor :=
  if d.step = 0 then
    ({ code := StatusCode.kInvalidArgument, error_message := "step must be a non-zero integer." },
     [])
  else succeedingSession d

/-! # Theorems -/

/-! ## Properties of the federated builders -/

/-- Appending the client values one by one to a federated message leaves its
type alone and extends its value list by exactly those values, in order. -/
theorem foldl_add_value (vs : List Value) (t : Option FederatedType) (acc : List Value) :
    vs.foldl (fun values_pb client_value => ValueFederated.add_value values_pb client_value)
      (ValueFederated.mk t acc) = ValueFederated.mk t (acc ++ vs) := by
  induction vs generalizing acc with
  | nil => simp
  | cons v vs ih =>
    rw [List.foldl_cons]
    have h : ValueFederated.add_value (ValueFederated.mk t acc) v
        = ValueFederated.mk t (acc ++ [v]) := rfl
    rw [h, ih]
    simp

/-- Claim C1: for every value `v`, `ServerV v` is in the federated case, its
type has `all_equal = true`, a placement whose URI is exactly `"server"` and
no `member`, and its value list is the one-entry list `[v]`. -/
theorem ServerV_spec (v : Value) :
    ∃ (f : ValueFederated) (t : FederatedType),
      ServerV v = Value.federated f ∧ f.type = some t ∧
      t.all_equal = true ∧
      t.placement = some { value := some { uri := "server" } } ∧
      t.member = none ∧
      f.value = [v] ∧ f.value.length = 1 := by
  refine ⟨_, _, rfl, rfl, rfl, rfl, rfl, rfl, rfl⟩

/-- Claim C2: for every list `vs` and boolean `b`, `ClientsV vs b` is in the
federated case, its type has `all_equal = b` (`false` when `b` is omitted), a
placement whose URI is exactly `"clients"` and no `member`, and its value
list is `vs` itself: same length, same entry at every index, and empty for
the empty list. -/
theorem ClientsV_spec (vs : List Value) (b : Bool) :
    (∃ (f : ValueFederated) (t : FederatedType),
      ClientsV vs b = Value.federated f ∧ f.type = some t ∧
      t.all_equal = b ∧
      t.placement = some { value := some { uri := "clients" } } ∧
      t.member = none ∧
      f.value = vs ∧ f.value.length = vs.length ∧
      (∀ i : Nat, f.value[i]? = vs[i]?)) ∧
    ClientsV vs = ClientsV vs false ∧
    ClientsV [] b = Value.federated (.mk (some
      { placement := some { value := some { uri := "clients" } }, all_equal := b,
        member := none }) []) := by
  refine ⟨⟨ValueFederated.mk (some
      { placement := some { value := some { uri := "clients" } }, all_equal := b,
        member := none }) vs, _, ?_, rfl, rfl, rfl, rfl, rfl, rfl, fun _ => rfl⟩, rfl, rfl⟩
  simp only [ClientsV, ValueFederated.mutable_type, ValueFederated.default,
    ValueFederated.type, ValueFederated.value, FederatedType.set_all_equal,
    FederatedType.set_placement_uri, Option.getD_some, Option.getD_none]
  rw [foldl_add_value]
  simp

/-! ## Properties of the structure, block and lambda builders -/

/-- Appending values one by one to a value struct yields the old elements
followed by one unnamed element per value, in order. -/
theorem foldl_value_add_element (vs : List Value) (acc : List ValueStructElement) :
    vs.foldl (fun struct_proto element => ValueStruct.add_element_value struct_proto element)
      (ValueStruct.mk acc)
      = ValueStruct.mk (acc ++ vs.map fun v => ValueStructElement.mk "" (some v)) := by
  induction vs generalizing acc with
  | nil => simp
  | cons v vs ih =>
    rw [List.foldl_cons]
    have h : ValueStruct.add_element_value (ValueStruct.mk acc) v
        = ValueStruct.mk (acc ++ [ValueStructElement.mk "" (some v)]) := rfl
    rw [h, ih]
    simp

/-- Appending computations one by one to a computation struct yields the old
elements followed by one unnamed element per computation, in order. -/
theorem foldl_struct_add_element (cs : List Computation) (acc : List StructElement) :
    cs.foldl (fun struct_pb element => Struct.add_element_value struct_pb element)
      (Struct.mk acc)
      = Struct.mk (acc ++ cs.map fun c => StructElement.mk "" (some c)) := by
  induction cs generalizing acc with
  | nil => simp
  | cons c cs ih =>
    rw [List.foldl_cons]
    have h : Struct.add_element_value (Struct.mk acc) c
        = Struct.mk (acc ++ [StructElement.mk "" (some c)]) := rfl
    rw [h, ih]
    simp

/-- Appending locals one by one to a block keeps its result and yields the
old locals followed by one local per pair, in order. -/
theorem foldl_add_local (locals : List (String × Computation)) (acc : List BlockLocal)
    (r : Option Computation) :
    locals.foldl (fun block_pb loc => Block.add_local block_pb loc.1 loc.2) (Block.mk acc r)
      = Block.mk (acc ++ locals.map fun p => BlockLocal.mk p.1 (some p.2)) r := by
  induction locals generalizing acc with
  | nil => simp
  | cons p ps ih =>
    rw [List.foldl_cons]
    have h : Block.add_local (Block.mk acc r) p.1 p.2
        = Block.mk (acc ++ [BlockLocal.mk p.1 (some p.2)]) r := rfl
    rw [h, ih]
    simp

/-- Closed form of `StructV`. -/
theorem StructV_eq (vs : List Value) :
    StructV vs = Value.struct_ (.mk (vs.map fun v => ValueStructElement.mk "" (some v))) := by
  simp only [StructV, ValueStruct.default]
  rw [foldl_value_add_element]
  simp

/-- Closed form of `StructComputation`. -/
theorem StructComputation_eq (cs : List Computation) :
    StructComputation cs
      = Computation.mk none (.struct_ (.mk (cs.map fun c => StructElement.mk "" (some c)))) := by
  simp only [StructComputation, Struct.default]
  rw [foldl_struct_add_element]
  simp [Computation.default, Computation.type]

/-- Closed form of `BlockComputation`. -/
theorem BlockComputation_eq (locals : List (String × Computation)) (result : Computation) :
    BlockComputation locals result
      = Computation.mk none (.block (.mk (locals.map fun p => BlockLocal.mk p.1 (some p.2))
          (some result))) := by
  simp only [BlockComputation, Block.default]
  rw [foldl_add_local]
  simp [Computation.default, Computation.type, Block.set_result, Block.local_]

/-- Claim C4: `StructV` and `StructComputation` embed their argument list
element-wise and in order: the result is in the struct case, it has exactly
as many elements as the list, the value of element `i` is entry `i` of the
list, every element name is the empty default, and the empty list gives the
struct case with no element. -/
theorem StructV_StructComputation_spec (vs : List Value) (cs : List Computation) :
    (∃ s : ValueStruct, StructV vs = Value.struct_ s ∧
      s.element.length = vs.length ∧
      (∀ i : Nat, (s.element[i]?).map ValueStructElement.value = (vs[i]?).map some) ∧
      s.element.map ValueStructElement.name = List.replicate vs.length "") ∧
    (∃ s : Struct, (StructComputation cs).computation = ComputationCase.struct_ s ∧
      (StructComputation cs).type = none ∧
      s.element.length = cs.length ∧
      (∀ i : Nat, (s.element[i]?).map StructElement.value = (cs[i]?).map some) ∧
      s.element.map StructElement.name = List.replicate cs.length "") ∧
    StructV [] = Value.struct_ (.mk []) ∧
    StructComputation [] = Computation.mk none (.struct_ (.mk [])) := by
  refine ⟨⟨_, StructV_eq vs, ?_, ?_, ?_⟩,
    ⟨Struct.mk (cs.map fun c => StructElement.mk "" (some c)), ?_, ?_, ?_, ?_, ?_⟩, rfl, rfl⟩
  · simp [ValueStruct.element]
  · intro i
    simp [ValueStruct.element, ValueStructElement.value, Function.comp_def]
  · simp [ValueStruct.element, ValueStructElement.name, Function.comp_def,
      List.eq_replicate_iff]
  · rw [StructComputation_eq]; rfl
  · rw [StructComputation_eq]; rfl
  · simp [Struct.element]
  · intro i
    simp [Struct.element, StructElement.value, Function.comp_def]
  · simp [Struct.element, StructElement.name, Function.comp_def, List.eq_replicate_iff]

/-- Claim C6: `BlockComputation locals result` is in the block case; its
local list has exactly one entry per pair, entry `i` carrying name and
computation of pair `i` in the given order (so duplicate names stay, nothing
is merged or reordered), and its result field is `result`. -/
theorem BlockComputation_spec (locals : List (String × Computation)) (result : Computation) :
    ∃ b : Block, (BlockComputation locals result).computation = ComputationCase.block b ∧
      (BlockComputation locals result).type = none ∧
      b.local_.length = locals.length ∧
      b.local_.map (fun l => (l.name, l.value)) = locals.map (fun p => (p.1, some p.2)) ∧
      (∀ i : Nat, (b.local_[i]?).map BlockLocal.name = (locals[i]?).map Prod.fst) ∧
      (∀ i : Nat, (b.local_[i]?).map BlockLocal.value
        = (locals[i]?).map (fun p => some p.2)) ∧
      b.result = some result := by
  refine ⟨Block.mk (locals.map fun p => BlockLocal.mk p.1 (some p.2)) (some result),
    ?_, ?_, ?_, ?_, ?_, ?_, ?_⟩
  · rw [BlockComputation_eq]; rfl
  · rw [BlockComputation_eq]; rfl
  · simp [Block.local_]
  · simp [Block.local_, BlockLocal.name, BlockLocal.value, Function.comp_def]
  · intro i
    simp [Block.local_, BlockLocal.name, Function.comp_def]
  · intro i
    simp [Block.local_, BlockLocal.value, Function.comp_def]
  · rfl

/-- Claim C7: `LambdaComputation p r` is in the lambda case with result
field `r`; for a present name `n` the `parameter_name` is `n` unchanged, for
an absent name it is the empty default, so that an absent name and an
empty-string name give equal computations. -/
theorem LambdaComputation_spec (p : Option String) (n : String) (r : Computation) :
    (∃ l : Lambda, (LambdaComputation p r).computation = ComputationCase.lambda l ∧
      (LambdaComputation p r).type = none ∧
      l.result = some r ∧ l.parameter_name = p.getD "") ∧
    LambdaComputation (some n) r = Computation.mk none (.lambda (.mk n (some r))) ∧
    LambdaComputation none r = Computation.mk none (.lambda (.mk "" (some r))) ∧
    LambdaComputation none r = LambdaComputation (some "") r := by
  refine ⟨?_, rfl, rfl, rfl⟩
  cases p with
  | none => exact ⟨_, rfl, rfl, rfl, rfl⟩
  | some m => exact ⟨_, rfl, rfl, rfl, rfl⟩

/-! ## Properties of the intrinsic helpers -/

/-- A value built by `IntrinsicV` determines its URI. -/
theorem IntrinsicV_injective : Function.Injective IntrinsicV := by
  intro a b h
  have h2 := congrArg Value.intrinsicUri? h
  simpa [IntrinsicV, Value.intrinsicUri?] using h2

/-- Claim C5: each of the twelve helpers of namespace `intrinsic` is
`IntrinsicV uri` and also `ComputationV (IntrinsicComputation uri)` for the
URI that is the snake case of its own name, and is a computation whose
intrinsic URI is that string; `FederatedAggregateV` has URI
`"federated_aggregate"`; the twelve values are pairwise distinct. -/
theorem intrinsic_helpers_spec :
    intrinsicHelpers.length = 12 ∧
    intrinsicHelpers.map Prod.snd
      = intrinsicHelpers.map (fun h => IntrinsicV (specIntrinsicUri h.1)) ∧
    intrinsicHelpers.map Prod.snd
      = intrinsicHelpers.map (fun h => ComputationV (IntrinsicComputation (specIntrinsicUri h.1))) ∧
    intrinsicHelpers.map (fun h => h.2.intrinsicUri?)
      = intrinsicHelpers.map (fun h => some (specIntrinsicUri h.1)) ∧
    (∀ uri : String, IntrinsicV uri = ComputationV (IntrinsicComputation uri)) ∧
    intrinsic.FederatedAggregateV.intrinsicUri? = some "federated_aggregate" ∧
    (intrinsicHelpers.map Prod.snd).Pairwise (fun a b => a ≠ b) := by
  have hspec : intrinsicHelpers.map (fun h => specIntrinsicUri h.1)
      = ["args_into_sequence", "federated_aggregate", "federated_broadcast", "federated_map",
         "federated_map_all_equal", "federated_eval_at_clients", "federated_eval_at_server",
         "federated_select", "federated_value_at_clients", "federated_value_at_server",
         "federated_zip_at_clients", "federated_zip_at_server"] := by
    decide
  have hvals : intrinsicHelpers.map Prod.snd
      = (intrinsicHelpers.map (fun h => specIntrinsicUri h.1)).map IntrinsicV := by
    rw [hspec]; rfl
  refine ⟨rfl, ?_, ?_, ?_, fun _ => rfl, rfl, ?_⟩
  · rw [hvals, List.map_map]; rfl
  · rw [hvals, List.map_map]; rfl
  · have h3 : intrinsicHelpers.map (fun h => h.2.intrinsicUri?)
        = (intrinsicHelpers.map Prod.snd).map Value.intrinsicUri? := by
      rw [List.map_map]; rfl
    rw [h3, hvals, List.map_map, List.map_map]; rfl
  · rw [hvals, hspec]
    refine List.Pairwise.map IntrinsicV (fun a b hab => ?_)
      (show List.Pairwise (fun a b : String => a ≠ b) _ by decide)
    exact fun h => hab (IntrinsicV_injective h)

/-! ## Properties of the tensor builders -/

/-- After the first `k` rounds of the fill loop the buffer agrees with
`elements` below `k` and is untouched from `k` on. -/
theorem fill_getElem (elements flat : List Int) (hlen : flat.length = elements.length)
    (k : Nat) (hk : k ≤ elements.length) :
    (TensorVFromIntList.fill elements k flat).length = elements.length ∧
    ∀ j : Nat, (TensorVFromIntList.fill elements k flat)[j]?
      = if j < k then elements[j]? else flat[j]? := by
  induction k with
  | zero => simp [TensorVFromIntList.fill, hlen]
  | succ k ih =>
    obtain ⟨hl, hget⟩ := ih (Nat.le_of_succ_le hk)
    have hstep : TensorVFromIntList.fill elements (k + 1) flat
        = (TensorVFromIntList.fill elements k flat).set k (elements.getD k 0) := by
      simp [TensorVFromIntList.fill, List.range_succ, List.foldl_append]
    rw [hstep]
    refine ⟨by simp [hl], fun j => ?_⟩
    rw [List.getElem?_set]
    by_cases hjk : k = j
    · subst hjk
      have hkl : k < elements.length := hk
      simp [hl, hkl, List.getD_eq_getElem?_getD, List.getElem?_eq_getElem hkl]
    · rw [if_neg hjk, hget j]
      by_cases h1 : j < k
      · simp [h1, Nat.lt_succ_of_lt h1]
      · have h2 : ¬ j < k + 1 := by omega
        simp [h1, h2]

/-- The fill loop run to the end turns any buffer of the right length into
`elements`. -/
theorem fill_eq (elements flat : List Int) (hlen : flat.length = elements.length) :
    TensorVFromIntList.fill elements elements.length flat = elements := by
  obtain ⟨hl, hget⟩ := fill_getElem elements flat hlen elements.length (Nat.le_refl _)
  apply List.ext_getElem?
  intro j
  rw [hget j]
  by_cases hj : j < elements.length
  · simp [hj]
  · have h1 : elements.length ≤ j := Nat.le_of_not_lt hj
    simp [hj, List.getElem?_eq_none h1, List.getElem?_eq_none (hlen ▸ h1)]

/-- Claim C8: for a list of `n` int32 elements (`n` below `2^63`, as every
span that fits the address space), whatever the freshly allocated buffer
held and whatever the two serializers compute, `TensorVFromIntList` returns
a value in the tensor case that packs the output of the `tensor_content`
serializer, never of the string-field one, applied to the tensor of dtype
`DT_INT32`, shape `[n]` and elements equal to the list, entry by entry. -/
theorem TensorVFromIntList_spec (AsProtoField AsProtoTensorContent : Tensor → TensorProto)
    (uninit : Nat → Int) (elements : List Int) (hn : elements.length < 2 ^ 63) :
    ∃ t : Tensor,
      TensorVFromIntList AsProtoField AsProtoTensorContent uninit elements
        = some (Value.tensor (PackFrom (AsProtoTensorContent t))) ∧
      t.dtype = DataType.DT_INT32 ∧
      t.shape = [(elements.length : Int)] ∧
      t.flat_int32 = elements ∧
      (∀ i : Nat, t.flat_int32[i]? = elements[i]?) ∧
      TensorVFromIntList AsProtoField AsProtoTensorContent uninit []
        = some (Value.tensor (PackFrom (AsProtoTensorContent
            { dtype := DataType.DT_INT32, shape := [0], buffer := TensorBuffer.ints [] }))) := by
  have hmod : elements.length % 2 ^ 64 = elements.length :=
    Nat.mod_eq_of_lt (by omega)
  have hcast : static_cast_int64 elements.length = (elements.length : Int) := by
    unfold static_cast_int64
    rw [hmod, if_pos hn]
  have hshape : TensorShape.rank1 (static_cast_int64 elements.length)
      = some [(elements.length : Int)] := by
    rw [hcast]
    unfold TensorShape.rank1
    rw [if_neg (by omega)]
  refine ⟨{ dtype := DataType.DT_INT32, shape := [(elements.length : Int)],
            buffer := TensorBuffer.ints elements }, ?_, rfl, rfl, rfl, fun _ => rfl, ?_⟩
  swap
  · simp [TensorVFromIntList, static_cast_int64, TensorShape.rank1, Tensor.allocInt32,
      TensorVFromIntList.fill, Tensor.with_flat_int32, Tensor.flat_int32, TensorV]
  unfold TensorVFromIntList
  simp only [hshape]
  have hfill : TensorVFromIntList.fill elements elements.length
      (Tensor.allocInt32 [(elements.length : Int)] uninit).flat_int32 = elements := by
    apply fill_eq
    simp [Tensor.allocInt32, Tensor.flat_int32]
  rw [hfill]
  simp [TensorV, Tensor.with_flat_int32, Tensor.allocInt32]

/-- Witness of C8 at the list `[7, -1, 3]`, with sample serializers: the
packed message has dtype `DT_INT32`, shape `[3]` and the three elements in
`tensor_content`. -/
theorem TensorVFromIntList_spec_witness :
    ([7, -1, 3] : List Int).length < 2 ^ 63 ∧
    (∃ t : Tensor,
      TensorVFromIntList sampleAsProtoField sampleAsProtoTensorContent (fun _ => 0) [7, -1, 3]
        = some (Value.tensor (PackFrom (sampleAsProtoTensorContent t))) ∧
      t.dtype = DataType.DT_INT32 ∧
      t.shape = [(([7, -1, 3] : List Int).length : Int)] ∧
      t.flat_int32 = [7, -1, 3] ∧
      (∀ i : Nat, t.flat_int32[i]? = ([7, -1, 3] : List Int)[i]?) ∧
      TensorVFromIntList sampleAsProtoField sampleAsProtoTensorContent (fun _ => 0) []
        = some (Value.tensor (PackFrom (sampleAsProtoTensorContent
            { dtype := DataType.DT_INT32, shape := [0], buffer := TensorBuffer.ints [] })))) ∧
    TensorVFromIntList sampleAsProtoField sampleAsProtoTensorContent (fun _ => 0) [7, -1, 3]
      = some (Value.tensor
          { type_url := "type.googleapis.com/tensorflow.TensorProto"
            value := { dtype := DataType.DT_INT32, tensor_shape := [3],
                       tensor_content := [7, 0, 0, 0, 255, 255, 255, 255, 3, 0, 0, 0] } }) :=
  ⟨by decide,
   TensorVFromIntList_spec sampleAsProtoField sampleAsProtoTensorContent (fun _ => 0)
     [7, -1, 3] (by decide),
   rfl⟩

/-! ## Properties of `SequenceValueToList` -/

section SequenceLoop

variable {ι : Type} (GetNext : ι → GetNextResult × ι)

/-- Call `i + 1` from a state is call `i` from the next state. -/
theorem callResult_succ (i : Nat) (it : ι) :
    callResult GetNext (i + 1) it = callResult GetNext i (GetNext it).2 := rfl

/-- Reading `k + 1` elements is reading one and then `k` from the next state. -/
theorem ReadsElements_succ (k : Nat) (it : ι) :
    ReadsElements GetNext (k + 1) it ↔
      ((GetNext it).1.status.ok = true ∧ (GetNext it).1.end_of_input = false) ∧
      ReadsElements GetNext k (GetNext it).2 := by
  constructor
  · intro h
    exact ⟨h 0 (Nat.succ_pos k), fun i hi => h (i + 1) (Nat.succ_lt_succ hi)⟩
  · rintro ⟨h0, hk⟩ i hi
    cases i with
    | zero => exact h0
    | succ i => exact hk i (Nat.lt_of_succ_lt_succ hi)

/-- The first `k + 1` outputs are the first output followed by the first `k`
outputs from the next state. -/
theorem elementsRead_succ (k : Nat) (it : ι) :
    elementsRead GetNext (k + 1) it
      = (GetNext it).1.output :: elementsRead GetNext k (GetNext it).2 := by
  unfold elementsRead
  rw [List.range_succ_eq_map, List.map_cons, List.map_map]
  rfl

/-- While the iterator yields elements the loop keeps running: `k` rounds
move the iterator `k` calls on and append the `k` outputs. -/
theorem loop_reads (k : Nat) : ∀ (it : ι) (outputs : List (List Tensor)) (fuel : Nat),
    ReadsElements GetNext k it →
    SequenceValueToList.loop GetNext (fuel + k) it outputs
      = SequenceValueToList.loop GetNext fuel (iterAfter GetNext k it)
          (outputs ++ elementsRead GetNext k it) := by
  induction k with
  | zero =>
    intro it outputs fuel _
    simp [elementsRead, iterAfter]
  | succ k ih =>
    intro it outputs fuel h
    obtain ⟨⟨hok, hend⟩, hk⟩ := (ReadsElements_succ GetNext k it).1 h
    have hunf : SequenceValueToList.loop GetNext (fuel + (k + 1)) it outputs
        = SequenceValueToList.loop GetNext (fuel + k) (GetNext it).2
            (outputs ++ [(GetNext it).1.output]) := by
      rw [← Nat.add_assoc]
      simp [SequenceValueToList.loop, hok, hend]
    rw [hunf, ih _ _ _ hk, elementsRead_succ]
    simp [iterAfter]

/-- The loop returns an error only because some call of `GetNext` failed
after `k` successful reads, and the error names the number of elements read
so far. -/
theorem loop_error (fuel : Nat) : ∀ (it : ι) (outputs : List (List Tensor)) (e : Status),
    SequenceValueToList.loop GetNext fuel it outputs = some (.error e) →
    ∃ k : Nat, ReadsElements GetNext k it ∧ (callResult GetNext k it).status.ok = false ∧
      e = getNextFailure (outputs.length + k) (callResult GetNext k it).status := by
  induction fuel with
  | zero => intro it outputs e h; simp [SequenceValueToList.loop] at h
  | succ fuel ih =>
    intro it outputs e h
    by_cases hok : (GetNext it).1.status.ok = true
    · by_cases hend : (GetNext it).1.end_of_input = true
      · simp [SequenceValueToList.loop, hok, hend] at h
      · have hend2 : (GetNext it).1.end_of_input = false := by simpa using hend
        simp only [SequenceValueToList.loop, hok, hend2] at h
        obtain ⟨k, hk, hfail, he⟩ := ih _ _ _ h
        refine ⟨k + 1, (ReadsElements_succ GetNext k it).2 ⟨⟨hok, hend2⟩, hk⟩, hfail, ?_⟩
        rw [he, callResult_succ]
        simp [Nat.add_assoc, Nat.add_comm 1 k]
    · have hok2 : (GetNext it).1.status.ok = false := by simpa using hok
      simp only [SequenceValueToList.loop, hok2] at h
      refine ⟨0, fun i hi => absurd hi (Nat.not_lt_zero i), hok2, ?_⟩
      simp at h
      rw [← h]
      rfl

/-- The loop returns a list only because the iterator yielded `k` elements
and then reported end of input, and the list is the old outputs followed by
exactly those elements. -/
theorem loop_ok (fuel : Nat) : ∀ (it : ι) (outputs l : List (List Tensor)),
    SequenceValueToList.loop GetNext fuel it outputs = some (.ok l) →
    ∃ k : Nat, ReadsElements GetNext k it ∧ (callResult GetNext k it).status.ok = true ∧
      (callResult GetNext k it).end_of_input = true ∧
      l = outputs ++ elementsRead GetNext k it := by
  induction fuel with
  | zero => intro it outputs l h; simp [SequenceValueToList.loop] at h
  | succ fuel ih =>
    intro it outputs l h
    by_cases hok : (GetNext it).1.status.ok = true
    · by_cases hend : (GetNext it).1.end_of_input = true
      · simp [SequenceValueToList.loop, hok, hend] at h
        refine ⟨0, fun i hi => absurd hi (Nat.not_lt_zero i), hok, hend, ?_⟩
        simp [elementsRead, h]
      · have hend2 : (GetNext it).1.end_of_input = false := by simpa using hend
        simp only [SequenceValueToList.loop, hok, hend2] at h
        obtain ⟨k, hk, hkok, hkend, hl⟩ := ih _ _ _ h
        refine ⟨k + 1, (ReadsElements_succ GetNext k it).2 ⟨⟨hok, hend2⟩, hk⟩, hkok, hkend, ?_⟩
        rw [hl, elementsRead_succ]
        simp
    · have hok2 : (GetNext it).1.status.ok = false := by simpa using hok
      simp [SequenceValueToList.loop, hok2] at h

end SequenceLoop

/-- Claim C3: `SequenceValueToList` only propagates failures and otherwise
returns every element.  A failure of `SequenceValueToDataset` is returned
unchanged; a failure of `MakeIterator` gives an internal error; when the
iterator yields `k` elements and the next `GetNext` fails, the result is an
internal error whose message names `k`, and no list; when it yields `k`
elements and then end of input, the result is OK with exactly those `k`
elements in iteration order.  Conversely an error result has one of these
three causes and an OK result is the list of all elements read before the
first end of input. -/
theorem SequenceValueToList_spec {δ ι : Type} (rt : DatasetRuntime δ ι) (sequence : Sequence) :
    (∀ st : Status, rt.SequenceValueToDataset sequence = .error st →
      ∀ fuel : Nat, SequenceValueToList rt fuel sequence = some (.error st)) ∧
    (∀ d : δ, rt.SequenceValueToDataset sequence = .ok d →
      (rt.MakeIterator d).1.ok = false →
      ∀ fuel : Nat, SequenceValueToList rt fuel sequence
        = some (.error (makeIteratorFailure (rt.MakeIterator d).1))) ∧
    (∀ (d : δ) (k : Nat), rt.SequenceValueToDataset sequence = .ok d →
      (rt.MakeIterator d).1.ok = true →
      ReadsElements rt.GetNext k (rt.MakeIterator d).2 →
      (callResult rt.GetNext k (rt.MakeIterator d).2).status.ok = false →
      ∀ fuel : Nat, k < fuel → SequenceValueToList rt fuel sequence
        = some (.error (getNextFailure k (callResult rt.GetNext k (rt.MakeIterator d).2).status))) ∧
    (∀ (d : δ) (k : Nat), rt.SequenceValueToDataset sequence = .ok d →
      (rt.MakeIterator d).1.ok = true →
      ReadsElements rt.GetNext k (rt.MakeIterator d).2 →
      (callResult rt.GetNext k (rt.MakeIterator d).2).status.ok = true →
      (callResult rt.GetNext k (rt.MakeIterator d).2).end_of_input = true →
      ∀ fuel : Nat, k < fuel → SequenceValueToList rt fuel sequence
        = some (.ok (elementsRead rt.GetNext k (rt.MakeIterator d).2))) ∧
    (∀ (fuel : Nat) (e : Status), SequenceValueToList rt fuel sequence = some (.error e) →
      rt.SequenceValueToDataset sequence = .error e ∨
      (∃ d : δ, rt.SequenceValueToDataset sequence = .ok d ∧
        (rt.MakeIterator d).1.ok = false ∧ e = makeIteratorFailure (rt.MakeIterator d).1) ∨
      (∃ (d : δ) (k : Nat), rt.SequenceValueToDataset sequence = .ok d ∧
        (rt.MakeIterator d).1.ok = true ∧
        ReadsElements rt.GetNext k (rt.MakeIterator d).2 ∧
        (callResult rt.GetNext k (rt.MakeIterator d).2).status.ok = false ∧
        e = getNextFailure k (callResult rt.GetNext k (rt.MakeIterator d).2).status)) ∧
    (∀ (fuel : Nat) (l : List (List Tensor)),
      SequenceValueToList rt fuel sequence = some (.ok l) →
      ∃ (d : δ) (k : Nat), rt.SequenceValueToDataset sequence = .ok d ∧
        (rt.MakeIterator d).1.ok = true ∧
        ReadsElements rt.GetNext k (rt.MakeIterator d).2 ∧
        (callResult rt.GetNext k (rt.MakeIterator d).2).status.ok = true ∧
        (callResult rt.GetNext k (rt.MakeIterator d).2).end_of_input = true ∧
        l = elementsRead rt.GetNext k (rt.MakeIterator d).2 ∧ l.length = k) := by
  refine ⟨?_, ?_, ?_, ?_, ?_, ?_⟩
  · intro st hds fuel
    simp [SequenceValueToList, hds]
  · intro d hds hmk fuel
    simp [SequenceValueToList, hds, hmk, makeIteratorFailure]
  · intro d k hds hmk hreads hfail fuel hfuel
    obtain ⟨m, rfl⟩ : ∃ m, fuel = (m + 1) + k := ⟨fuel - k - 1, by omega⟩
    simp only [SequenceValueToList, hds, hmk]
    have h := loop_reads rt.GetNext k (rt.MakeIterator d).2 [] (m + 1) hreads
    simp only [Bool.not_true, Bool.false_eq_true, if_false]
    rw [h]
    have hfail2 : (rt.GetNext (iterAfter rt.GetNext k (rt.MakeIterator d).2)).1.status.ok
        = false := hfail
    simp [SequenceValueToList.loop, hfail2, getNextFailure, callResult, elementsRead]
  · intro d k hds hmk hreads hok hend fuel hfuel
    obtain ⟨m, rfl⟩ : ∃ m, fuel = (m + 1) + k := ⟨fuel - k - 1, by omega⟩
    simp only [SequenceValueToList, hds, hmk]
    have h := loop_reads rt.GetNext k (rt.MakeIterator d).2 [] (m + 1) hreads
    simp only [Bool.not_true, Bool.false_eq_true, if_false]
    rw [h]
    have hok2 : (rt.GetNext (iterAfter rt.GetNext k (rt.MakeIterator d).2)).1.status.ok
        = true := hok
    have hend2 : (rt.GetNext (iterAfter rt.GetNext k (rt.MakeIterator d).2)).1.end_of_input
        = true := hend
    simp [SequenceValueToList.loop, hok2, hend2]
  · intro fuel e h
    cases hds : rt.SequenceValueToDataset sequence with
    | error st =>
      left
      simp [SequenceValueToList, hds] at h
      rw [h]
    | ok d =>
      right
      by_cases hmk : (rt.MakeIterator d).1.ok = true
      · right
        simp only [SequenceValueToList, hds, hmk, Bool.not_true, Bool.false_eq_true,
          if_false] at h
        obtain ⟨k, hk, hfail, he⟩ := loop_error rt.GetNext fuel _ _ _ h
        refine ⟨d, k, rfl, hmk, hk, hfail, ?_⟩
        simpa using he
      · left
        have hmk2 : (rt.MakeIterator d).1.ok = false := by simpa using hmk
        simp [SequenceValueToList, hds, hmk2] at h
        exact ⟨d, rfl, hmk2, by rw [← h]; rfl⟩
  · intro fuel l h
    cases hds : rt.SequenceValueToDataset sequence with
    | error st => simp [SequenceValueToList, hds] at h
    | ok d =>
      by_cases hmk : (rt.MakeIterator d).1.ok = true
      · simp only [SequenceValueToList, hds, hmk, Bool.not_true, Bool.false_eq_true,
          if_false] at h
        obtain ⟨k, hk, hok, hend, hl⟩ := loop_ok rt.GetNext fuel _ _ _ h
        refine ⟨d, k, rfl, hmk, hk, hok, hend, by simpa using hl, ?_⟩
        rw [hl]
        simp [elementsRead]
      · have hmk2 : (rt.MakeIterator d).1.ok = false := by simpa using hmk
        simp [SequenceValueToList, hds, hmk2] at h

/-- Witness of C3: on the counting runtime the three elements come back in
order, and on the failing runtime the error names the two elements read. -/
theorem SequenceValueToList_spec_witness :
    SequenceValueToList countingRuntime 4 {}
      = some (.ok [[scalarInt64 0], [scalarInt64 1], [scalarInt64 2]]) ∧
    SequenceValueToList failingRuntime 3 {}
      = some (.error (InternalError
          "Failed to get the 2th element of the sequence: read failed")) :=
  ⟨(SequenceValueToList_spec countingRuntime {}).2.2.2.1 () 3 rfl rfl
      (by decide) rfl rfl 4 (by decide),
   (SequenceValueToList_spec failingRuntime {}).2.2.1 () 2 rfl rfl
      (by decide) rfl 3 (by decide)⟩

/-! ## Range datasets and sequence values: what the code does -/

/-- Claim C9, as the code behaves: on a session that succeeds,
`SequenceV 0 10 1` is a value in the sequence case whose
`serialized_graph_def` is the string `CreateSerializedRangeDatasetGraphDef`
returned and whose declared dtype `DT_INT64` agrees with the dataset, but
whose declared `dims` are `[1]` while the dataset is built with the scalar
output shape `[]`: the declared shape does not agree with the dataset. -/
theorem SequenceV_element_type_disagrees :
    ∃ (s : Sequence) (t : TensorType) (g : String),
      SequenceV succeedingSession 0 10 1 = .ok (Value.sequence s) ∧
      CreateSerializedRangeDatasetGraphDef succeedingSession 0 10 1 = .ok g ∧
      s.serialized_graph_def = some g ∧
      s.element_type = some (TypeProto.tensor t) ∧
      [t.dtype] = (rangeDataset 0 10 1).output_types ∧
      t.dims = [1] ∧
      (rangeDataset 0 10 1).output_shapes = [[]] ∧
      [t.dims] ≠ (rangeDataset 0 10 1).output_shapes :=
  ⟨_, _, _, rfl, rfl, rfl, rfl, rfl, rfl, rfl, by decide⟩

/-- Claim C10, as the code behaves: the status of `session.Run` is never
inspected.  On the session that rejects step 0, the call with step 0 gets an
error status and an empty `outputs`, and still reads `outputs[0]`, which is
out of range; in general, whenever `Run` leaves `outputs` empty the read is
out of range, whatever the status. -/
theorem CreateSerializedRangeDatasetGraphDef_reads_after_failure :
    (rejectingSession (rangeDataset 0 10 0)).1.ok = false ∧
    (rejectingSession (rangeDataset 0 10 0)).2 = [] ∧
    CreateSerializedRangeDatasetGraphDef rejectingSession 0 10 0
      = .error Fault.vectorIndexOutOfRange ∧
    (∀ (Run : RangeDataset → Status × List Tensor) (start stop step : Int),
      (Run (rangeDataset start stop step)).2 = [] →
      CreateSerializedRangeDatasetGraphDef Run start stop step
        = .error Fault.vectorIndexOutOfRange) ∧
    (∀ (Run Run2 : RangeDataset → Status × List Tensor) (start stop step : Int),
      (Run (rangeDataset start stop step)).2 = (Run2 (rangeDataset start stop step)).2 →
      CreateSerializedRangeDatasetGraphDef Run start stop step
        = CreateSerializedRangeDatasetGraphDef Run2 start stop step) := by
  refine ⟨rfl, rfl, rfl, ?_, ?_⟩
  · intro Run start stop step h
    simp [CreateSerializedRangeDatasetGraphDef, h]
  · intro Run Run2 start stop step h
    simp [CreateSerializedRangeDatasetGraphDef, h]

end TFF
